import Mathlib

/-!
Verification of the Stride haptic command pipeline.

The definitions below are a shallow embedding of the C sources:
  - `src/src/services/haptics/haptic_service.c` (BLE command decoder,
    pattern table, FIFO producers), and
  - the DRV2605L register-level driver (`drv2605l.c` / `drv2605l.h`).

Bytes are modelled as `Nat` (the C code only compares them against small
constants, so no wraparound is observable), errno values as positive `Int`
constants returned negated, the FIFO enqueue as the `Except`-value carrying
the request that would be placed on the queue (buffer allocation is an
environment effect outside the embedding), and the I2C bus as an oracle
giving the outcome of every read and write transaction in order.  Driver
operations return the C result code together with the ordered list of
successful register writes they performed and the advanced transaction
counter.
-/

set_option maxRecDepth 4000

/-! ## Errno constants (Zephyr values; the code returns them negated) -/

def EINVAL : Int := 22
def ENOMEM : Int := 12
def ENODEV : Int := 19
def ENOTSUP : Int := 134
def ETIMEDOUT : Int := 116
def EIO_code : Int := 5

/-! ## Effect constants used by the pattern table (drv2605l.h) -/

def DRV2605L_EFFECT_STRONG_CLICK_100 : Nat := 1
def DRV2605L_EFFECT_SHARP_CLICK_100 : Nat := 4
def DRV2605L_EFFECT_SHARP_CLICK_60 : Nat := 5
def DRV2605L_EFFECT_SOFT_BUMP_100 : Nat := 7
def DRV2605L_EFFECT_SOFT_BUMP_60 : Nat := 8
def DRV2605L_EFFECT_DOUBLE_CLICK_100 : Nat := 10
def DRV2605L_EFFECT_STRONG_BUZZ_100 : Nat := 14
def DRV2605L_EFFECT_PULSING_STRONG_1 : Nat := 52
def DRV2605L_EFFECT_TRANSITION_RAMP_DOWN_LONG_SMOOTH_1 : Nat := 71
def DRV2605L_EFFECT_TRANSITION_RAMP_UP_LONG_SMOOTH_1 : Nat := 83
def DRV2605L_EFFECT_TRANSITION_RAMP_UP_SHORT_SMOOTH_1 : Nat := 87

/-! ## Haptic service data model (haptic_service.h) -/

def HAPTIC_MAX_DATA_SIZE : Nat := 32

inductive HapticPatternType where
  | singleEffect
  | sequence
  | custom
  | stop
deriving DecidableEq, Repr

/-- One element of the haptic FIFO: `struct haptic_data_t` without the
kernel bookkeeping field (`data` holds the first `len` payload bytes). -/
structure HapticData where
  type : HapticPatternType
  data : List Nat
deriving DecidableEq, Repr

/-- `queue_haptic_data`: length guard, then the request that `k_fifo_put`
would enqueue.  `k_malloc` failure is an environment effect and not part of
the embedding. -/
def queue_haptic_data (type : HapticPatternType) (data : List Nat) :
    Except Int HapticData :=
  if data.length > HAPTIC_MAX_DATA_SIZE then Except.error (-EINVAL)
  else Except.ok ⟨type, data⟩

/-! ## Pattern table (haptic_service.c lines 28-101) -/

def pattern_notification : List Nat := [DRV2605L_EFFECT_SHARP_CLICK_100]

def pattern_alert : List Nat :=
  [DRV2605L_EFFECT_STRONG_BUZZ_100, DRV2605L_EFFECT_STRONG_BUZZ_100]

def pattern_success : List Nat :=
  [DRV2605L_EFFECT_TRANSITION_RAMP_UP_SHORT_SMOOTH_1,
   DRV2605L_EFFECT_STRONG_CLICK_100]

def pattern_error : List Nat :=
  [DRV2605L_EFFECT_STRONG_CLICK_100, DRV2605L_EFFECT_STRONG_CLICK_100,
   DRV2605L_EFFECT_STRONG_CLICK_100]

def pattern_button_press : List Nat := [DRV2605L_EFFECT_SHARP_CLICK_60]

def pattern_long_press : List Nat :=
  [DRV2605L_EFFECT_SOFT_BUMP_100, DRV2605L_EFFECT_STRONG_CLICK_100]

def pattern_double_tap : List Nat := [DRV2605L_EFFECT_DOUBLE_CLICK_100]

def pattern_heartbeat : List Nat :=
  [DRV2605L_EFFECT_SOFT_BUMP_100, DRV2605L_EFFECT_SOFT_BUMP_60]

def pattern_ramp_up : List Nat :=
  [DRV2605L_EFFECT_TRANSITION_RAMP_UP_LONG_SMOOTH_1]

def pattern_ramp_down : List Nat :=
  [DRV2605L_EFFECT_TRANSITION_RAMP_DOWN_LONG_SMOOTH_1]

def pattern_pulse : List Nat := [DRV2605L_EFFECT_PULSING_STRONG_1]

def pattern_buzz : List Nat := [DRV2605L_EFFECT_STRONG_BUZZ_100]

/-- The static lookup table, indexed by `haptic_predefined_pattern_t`
(0 = NOTIFICATION .. 11 = BUZZ). -/
def predefined_patterns : List (List Nat) :=
  [pattern_notification, pattern_alert, pattern_success, pattern_error,
   pattern_button_press, pattern_long_press, pattern_double_tap,
   pattern_heartbeat, pattern_ramp_up, pattern_ramp_down, pattern_pulse,
   pattern_buzz]

/-! ## Service entry points (haptic_service.c lines 159-281) -/

/-- `haptic_play_effect` (haptic_service.c line 159). -/
def haptic_play_effect (effect : Nat) : Except Int HapticData :=
  if effect < 1 ∨ effect > 123 then Except.error (-EINVAL)
  else queue_haptic_data HapticPatternType.singleEffect [effect]

/-- `haptic_play_pattern` (haptic_service.c line 172). -/
def haptic_play_pattern (pattern : Nat) : Except Int HapticData :=
  if pattern ≥ predefined_patterns.length then Except.error (-EINVAL)
  else queue_haptic_data HapticPatternType.sequence
    (predefined_patterns.getD pattern [])

/-- `haptic_play_sequence` (haptic_service.c line 186).  The non-null
`effects` pointer together with `count` is modelled as a list of exactly
`count` bytes. -/
def haptic_play_sequence (effects : List Nat) : Except Int HapticData :=
  if effects.isEmpty then Except.error (-EINVAL)
  else
    let es := if effects.length > HAPTIC_MAX_DATA_SIZE
              then effects.take HAPTIC_MAX_DATA_SIZE else effects
    if es.any (fun e => e < 1 ∨ e > 123) then Except.error (-EINVAL)
    else queue_haptic_data HapticPatternType.sequence es

/-- `haptic_stop` (haptic_service.c line 278). -/
def haptic_stop : Except Int HapticData :=
  queue_haptic_data HapticPatternType.stop []

/-- `haptic_process_ble_data` (haptic_service.c line 228): the command
buffer decoder.  The buffer is the list of bytes; its length is the `len`
argument. -/
def haptic_process_ble_data (data : List Nat) : Except Int HapticData :=
  match data with
  | [] => Except.error (-EINVAL)
  | cmd :: rest =>
    if cmd = 0x01 then
      match rest with
      | [] => Except.error (-EINVAL)
      | e :: _ => haptic_play_effect e
    else if cmd = 0x02 then
      match rest with
      | [] => Except.error (-EINVAL)
      | count :: payload =>
        if data.length < 2 + count then Except.error (-EINVAL)
        else haptic_play_sequence (payload.take count)
    else if cmd = 0x03 then
      match rest with
      | [] => Except.error (-EINVAL)
      | p :: _ => haptic_play_pattern p
    else if cmd = 0x04 then haptic_stop
    else Except.error (-ENOTSUP)

/-! ## DRV2605L driver embedding (drv2605l.c / drv2605l.h)

The I2C bus is an oracle indexed by a running transaction counter `n`
(every read and every write advances it by one): `write n reg v` gives the
`i2c_write_dt` return code of that transaction, `read n reg` gives the
`i2c_write_read_dt` return code together with the byte read.  Each driver
operation returns the C result, the ordered list of register writes that
reached the device (those whose bus return code was not negative), and the
advanced counter. -/

def DRV2605L_REG_STATUS : Nat := 0x00
def DRV2605L_REG_MODE : Nat := 0x01
def DRV2605L_REG_LIBRARY : Nat := 0x03
def DRV2605L_REG_WAVESEQ1 : Nat := 0x04
def DRV2605L_REG_WAVESEQ2 : Nat := 0x05
def DRV2605L_REG_GO : Nat := 0x0C
def DRV2605L_REG_RATEDV : Nat := 0x16
def DRV2605L_REG_CLAMPV : Nat := 0x17
def DRV2605L_REG_FEEDBACK : Nat := 0x1A
def DRV2605L_REG_CONTROL1 : Nat := 0x1B
def DRV2605L_REG_CONTROL2 : Nat := 0x1C
def DRV2605L_REG_CONTROL3 : Nat := 0x1D

def DRV2605L_MODE_INTTRIG : Nat := 0x00
def DRV2605L_MODE_AUTOCAL : Nat := 0x07
def DRV2605L_MODE_STANDBY : Nat := 0x40

def DRV2605L_LIB_ERM : Nat := 0x01
def DRV2605L_LIB_LRA : Nat := 0x06

def DRV2605L_MAX_WAVEFORM_SEQ : Nat := 8

inductive MotorType where
  | erm
  | lra
deriving DecidableEq, Repr

/-- The static driver state (`initialized` and `motor_type` in
drv2605l.c). -/
structure DrvState where
  initialized : Bool
  motor_type : MotorType
deriving DecidableEq, Repr

/-- The I2C bus oracle (see the section header). `ready` models
`device_is_ready` on the bus device. -/
structure Bus where
  ready : Bool
  write : Nat → Nat → Nat → Int
  read : Nat → Nat → Int × Nat

/-- A write trace: the `(register, value)` pairs that reached the device,
in order. -/
abbrev WTrace := List (Nat × Nat)

/-- `drv2605l_write_reg` wrapped with the trace/counter bookkeeping: on a
negative bus return code the C caller aborts with that code (error branch),
otherwise the write is appended to the trace. -/
def wr (bus : Bus) (n : Nat) (tr : WTrace) (reg v : Nat) :
    Except (Int × WTrace × Nat) (WTrace × Nat) :=
  if bus.write n reg v < 0 then Except.error (bus.write n reg v, tr, n + 1)
  else Except.ok (tr ++ [(reg, v)], n + 1)

/-- Error-propagating composition of bus steps: `andThenW x f` continues
with `f` on the running trace and counter when `x` succeeded, and aborts
with the pending `(code, trace, counter)` otherwise — the shape of every
`if (ret < 0) return ret;` chain in drv2605l.c. -/
def andThenW (x : Except (Int × WTrace × Nat) (WTrace × Nat))
    (f : WTrace → Nat → Except (Int × WTrace × Nat) (WTrace × Nat)) :
    Except (Int × WTrace × Nat) (WTrace × Nat) :=
  match x with
  | Except.error out => Except.error out
  | Except.ok (tr, m) => f tr m

/-- Final result of a chain of bus steps: the C function returns 0 when
every step succeeded and the pending error code otherwise. -/
def doneW : Except (Int × WTrace × Nat) (WTrace × Nat) → Int × WTrace × Nat
  | Except.error out => out
  | Except.ok (tr, m) => (0, tr, m)

/-- Sequential register writes of a fixed `(register, value)` list, the
shape of the straight-line write chain in `drv2605l_init`. -/
def wrChain (bus : Bus) : Nat → WTrace → List (Nat × Nat) →
    Except (Int × WTrace × Nat) (WTrace × Nat)
  | n, tr, [] => Except.ok (tr, n)
  | n, tr, (reg, v) :: rest =>
    andThenW (wr bus n tr reg v) fun tr m => wrChain bus m tr rest

/-- `drv2605l_init` (drv2605l.c line 64): a status-register probe, then
the straight-line register-write sequence (mode, library, feedback, the
ERM-only rated-voltage and overdrive-clamp pair, and the three control
registers).  Note that `motor_type` is stored before the probe, exactly as
in the C code. -/
def drv2605l_init (bus : Bus) (s : DrvState) (n : Nat) (t : MotorType) :
    Int × WTrace × Nat × DrvState :=
  if ¬ bus.ready then (-ENODEV, [], n, s)
  else
    let s2 : DrvState := { s with motor_type := t }
    if (bus.read n DRV2605L_REG_STATUS).1 < 0 then
      ((bus.read n DRV2605L_REG_STATUS).1, [], n + 1, s2)
    else
      match wrChain bus (n + 1) []
          ([(DRV2605L_REG_MODE, DRV2605L_MODE_INTTRIG),
            (DRV2605L_REG_LIBRARY,
             if t = MotorType.lra then DRV2605L_LIB_LRA else DRV2605L_LIB_ERM),
            (DRV2605L_REG_FEEDBACK,
             if t = MotorType.lra then 0x80 else 0x00)] ++
           (if t = MotorType.erm then
              [(DRV2605L_REG_RATEDV, 0x90), (DRV2605L_REG_CLAMPV, 0xFF)]
            else []) ++
           [(DRV2605L_REG_CONTROL1, 0x93), (DRV2605L_REG_CONTROL2, 0xF5),
            (DRV2605L_REG_CONTROL3, 0xA0)]) with
      | Except.error (r, tr, m) => (r, tr, m, s2)
      | Except.ok (tr, m) => (0, tr, m, { s2 with initialized := true })

/-- `drv2605l_play_effect` (drv2605l.c line 150). -/
def drv2605l_play_effect (bus : Bus) (s : DrvState) (n : Nat) (effect : Nat) :
    Int × WTrace × Nat :=
  if ¬ s.initialized then (-ENODEV, [], n)
  else if effect < 1 ∨ effect > 123 then (-EINVAL, [], n)
  else doneW (
    andThenW (wr bus n [] DRV2605L_REG_WAVESEQ1 effect) fun tr m =>
    andThenW (wr bus m tr DRV2605L_REG_WAVESEQ2 0x00) fun tr m =>
    wr bus m tr DRV2605L_REG_GO 0x01)

/-- The `for` loop inside `drv2605l_play_sequence` (drv2605l.c lines
210-220): validate `effects[i]` and, if valid, write it to the slot
register `WAVESEQ1 + i`, aborting on the first invalid effect or failed
write. -/
def drv2605l_seq_loop (bus : Bus) :
    List Nat → Nat → Nat → WTrace →
    Except (Int × WTrace × Nat) (WTrace × Nat)
  | [], _, n, tr => Except.ok (tr, n)
  | e :: rest, i, n, tr =>
    if e < 1 ∨ e > 123 then Except.error (-EINVAL, tr, n)
    else andThenW (wr bus n tr (DRV2605L_REG_WAVESEQ1 + i) e) fun tr m =>
      drv2605l_seq_loop bus rest (i + 1) m tr

/-- `drv2605l_play_sequence` (drv2605l.c line 189). -/
def drv2605l_play_sequence (bus : Bus) (s : DrvState) (n : Nat)
    (effects : List Nat) : Int × WTrace × Nat :=
  if ¬ s.initialized then (-ENODEV, [], n)
  else if effects.isEmpty then (-EINVAL, [], n)
  else
    let es := if effects.length > DRV2605L_MAX_WAVEFORM_SEQ
              then effects.take DRV2605L_MAX_WAVEFORM_SEQ else effects
    doneW (
      andThenW (drv2605l_seq_loop bus es 0 n []) fun tr m =>
      andThenW (if es.length < DRV2605L_MAX_WAVEFORM_SEQ then
                  wr bus m tr (DRV2605L_REG_WAVESEQ1 + es.length) 0x00
                else Except.ok (tr, m)) fun tr m =>
      wr bus m tr DRV2605L_REG_GO 0x01)

/-- `drv2605l_stop` (drv2605l.c line 243). -/
def drv2605l_stop (bus : Bus) (s : DrvState) (n : Nat) :
    Int × WTrace × Nat :=
  if ¬ s.initialized then (-ENODEV, [], n)
  else doneW (wr bus n [] DRV2605L_REG_GO 0x00)

/-- `drv2605l_standby` (drv2605l.c line 264). -/
def drv2605l_standby (bus : Bus) (s : DrvState) (n : Nat) :
    Int × WTrace × Nat :=
  if ¬ s.initialized then (-ENODEV, [], n)
  else doneW (wr bus n [] DRV2605L_REG_MODE DRV2605L_MODE_STANDBY)

/-- `drv2605l_wakeup` (drv2605l.c line 284). -/
def drv2605l_wakeup (bus : Bus) (s : DrvState) (n : Nat) :
    Int × WTrace × Nat :=
  if ¬ s.initialized then (-ENODEV, [], n)
  else doneW (wr bus n [] DRV2605L_REG_MODE DRV2605L_MODE_INTTRIG)

/-- Outcome of the polling loop in `drv2605l_auto_calibrate`:
`readFail` models `return ret` on a failed GO-register read; `done t m`
models loop exit (break or exhausted condition) with `t` the value the C
variable `timeout` holds right after the loop. -/
inductive PollOut where
  | readFail (e : Int) (n : Nat)
  | done (t : Int) (n : Nat)
deriving DecidableEq, Repr

/-- The `while (timeout-- > 0)` polling loop of `drv2605l_auto_calibrate`
(drv2605l.c lines 355-367).  `t` mirrors the C `timeout` variable; `fuel`
is structural and chosen larger than any reachable `t`. -/
def autocal_poll (bus : Bus) : Nat → Int → Nat → PollOut
  | 0, t, n => .done t n
  | fuel + 1, t, n =>
    if t > 0 then
      if (bus.read n DRV2605L_REG_GO).1 < 0 then
        .readFail (bus.read n DRV2605L_REG_GO).1 (n + 1)
      else if (bus.read n DRV2605L_REG_GO).2 % 2 = 0 then
        .done (t - 1) (n + 1)
      else autocal_poll bus fuel (t - 1) (n + 1)
    else .done (t - 1) n

/-- `drv2605l_auto_calibrate` (drv2605l.c line 324). -/
def drv2605l_auto_calibrate (bus : Bus) (s : DrvState) (n : Nat) :
    Int × WTrace × Nat :=
  if ¬ s.initialized then (-ENODEV, [], n)
  else if s.motor_type ≠ MotorType.lra then (-ENOTSUP, [], n)
  else
    match andThenW (wr bus n [] DRV2605L_REG_MODE DRV2605L_MODE_AUTOCAL)
        (fun tr m => wr bus m tr DRV2605L_REG_GO 0x01) with
    | Except.error out => out
    | Except.ok (tr, m) =>
      match autocal_poll bus 101 100 m with
      | PollOut.readFail e m2 => (e, tr, m2)
      | PollOut.done t m2 =>
        if t ≤ 0 then (-ETIMEDOUT, tr, m2)
        else if (bus.read m2 DRV2605L_REG_STATUS).1 < 0 then
          ((bus.read m2 DRV2605L_REG_STATUS).1, tr, m2 + 1)
        else if (bus.read m2 DRV2605L_REG_STATUS).2 &&& 0x08 ≠ 0 then
          (-EIO_code, tr, m2 + 1)
        else
          doneW (wr bus (m2 + 1) tr DRV2605L_REG_MODE DRV2605L_MODE_INTTRIG)

/-- A bus on which every transaction succeeds and every read returns 0. -/
def goodBus : Bus := ⟨true, fun _ _ _ => 0, fun _ _ => (0, 0)⟩

/-- Every write on the bus succeeds. -/
def goodWrites (bus : Bus) : Prop := ∀ n reg v, 0 ≤ bus.write n reg v

/-- The register-write list the sequence loop produces for consecutive
valid effects starting at slot offset `i`. -/
def slotWrites : Nat → List Nat → WTrace
  | _, [] => []
  | i, e :: rest => (DRV2605L_REG_WAVESEQ1 + i, e) :: slotWrites (i + 1) rest

/-- The driver range check on one effect id, as a Boolean predicate
(negation of the abort condition of the loop). -/
def effect_in_range (e : Nat) : Bool := decide (1 ≤ e) && decide (e ≤ 123)

/-- A bus on which every transaction succeeds and whose GO register reads 1
before transaction 101 and 0 from transaction 101 on: for an
`drv2605l_auto_calibrate` call started at counter 0 the go bit is observed
clear for the first time on the 100th (final) poll. -/
def lastPollClearBus : Bus :=
  ⟨true, fun _ _ _ => 0, fun n _ => (0, if n < 101 then 1 else 0)⟩

/-- Like `lastPollClearBus` but the go bit is observed clear on the 99th
poll (transaction 100). -/
def poll99ClearBus : Bus :=
  ⟨true, fun _ _ _ => 0, fun n _ => (0, if n < 100 then 1 else 0)⟩

/-- The register writes `drv2605l_init` performs after the status probe
when configuring an LRA motor. -/
def lraInitWrites : WTrace :=
  [(DRV2605L_REG_MODE, DRV2605L_MODE_INTTRIG),
   (DRV2605L_REG_LIBRARY, DRV2605L_LIB_LRA),
   (DRV2605L_REG_FEEDBACK, 0x80),
   (DRV2605L_REG_CONTROL1, 0x93),
   (DRV2605L_REG_CONTROL2, 0xF5),
   (DRV2605L_REG_CONTROL3, 0xA0)]

/-- The invariant every service-enqueued request satisfies: payload within
the FIFO buffer bound, and every effect byte in the driver range for the
effect-carrying request kinds. -/
abbrev payload_ok (r : HapticData) : Prop :=
  r.data.length ≤ 32 ∧
  ((r.type = HapticPatternType.singleEffect ∨
    r.type = HapticPatternType.sequence) →
   ∀ e ∈ r.data, 1 ≤ e ∧ e ≤ 123)

/-! ## Decoder lemmas and claim theorems -/

/-- The branch of the decoder for a sequence command reduces to the length
check followed by `haptic_play_sequence` on the first `N` payload bytes. -/
theorem decode_seq_eq (N : Nat) (rest : List Nat) :
    haptic_process_ble_data (2 :: N :: rest) =
      if rest.length < N then Except.error (-EINVAL)
      else haptic_play_sequence (rest.take N) := by
  change (if (2 :: N :: rest).length < 2 + N
          then (Except.error (-EINVAL) : Except Int HapticData)
          else haptic_play_sequence (rest.take N)) = _
  by_cases h : rest.length < N
  · rw [if_pos (by simp only [List.length_cons]; omega), if_pos h]
  · rw [if_neg (by simp only [List.length_cons]; omega), if_neg h]

/-- `haptic_play_sequence` in closed form: the truncation to 32 effects is
a plain `take 32`, validation is a range check over the truncated list. -/
theorem haptic_play_sequence_eq (l : List Nat) :
    haptic_play_sequence l =
      if l.isEmpty then Except.error (-EINVAL)
      else if (l.take 32).any (fun e => decide (e < 1 ∨ e > 123)) then
        Except.error (-EINVAL)
      else Except.ok ⟨HapticPatternType.sequence, l.take 32⟩ := by
  unfold haptic_play_sequence
  by_cases h0 : l.isEmpty
  · rw [if_pos h0, if_pos h0]
  · rw [if_neg h0, if_neg h0]
    have hes : (if l.length > HAPTIC_MAX_DATA_SIZE
                then l.take HAPTIC_MAX_DATA_SIZE else l) = l.take 32 := by
      by_cases hl : l.length > HAPTIC_MAX_DATA_SIZE
      · rw [if_pos hl]; rfl
      · rw [if_neg hl]
        refine (List.take_of_length_le ?_).symm
        simp only [HAPTIC_MAX_DATA_SIZE, gt_iff_lt, not_lt] at hl
        exact hl
    rw [hes]
    by_cases hv : (l.take 32).any (fun e => decide (e < 1 ∨ e > 123))
    · rw [if_pos hv, if_pos hv]
    · rw [if_neg hv, if_neg hv]
      have hle : ¬ (l.take 32).length > HAPTIC_MAX_DATA_SIZE := by
        have := List.length_take_le 32 l
        simp only [HAPTIC_MAX_DATA_SIZE, gt_iff_lt, not_lt]
        omega
      rw [queue_haptic_data, if_neg hle]

/-- C1 (counterexample): three concrete sequence buffers refuting the
claim as stated.  `[0x02, 0]` has length 2 + 0 and (vacuously) only valid
effects, yet decoding fails; `[0x02, 1, 50, 60]` has length 4 ≠ 2 + 1, yet
decoding succeeds; a buffer with N = 33 whose 33rd effect is the invalid id
200 still decodes, enqueueing only the first 32 effects. -/
theorem C1_sequence_decode_counterexample :
    haptic_process_ble_data [2, 0] = Except.error (-EINVAL)
    ∧ haptic_process_ble_data [2, 1, 50, 60] =
        Except.ok ⟨HapticPatternType.sequence, [50]⟩
    ∧ haptic_process_ble_data (2 :: 33 :: (List.replicate 32 1 ++ [200])) =
        Except.ok ⟨HapticPatternType.sequence, List.replicate 32 1⟩ :=
  ⟨rfl, rfl, rfl⟩

/-- C1 (amended): for a buffer `[0x02, N, rest]`, decoding succeeds and
enqueues the Sequence of the first `min N 32` payload bytes, in order, if
and only if `N ≥ 1`, the payload holds at least `N` bytes (extra trailing
bytes are ignored), and each of the first `min N 32` bytes is a valid
effect id in `[1, 123]` (a count above 32 is truncated to 32 and the bytes
beyond the 32nd are not validated). -/
theorem C1_sequence_decode_amended (N : Nat) (rest : List Nat) :
    haptic_process_ble_data (2 :: N :: rest) =
      Except.ok ⟨HapticPatternType.sequence, rest.take (min N 32)⟩
    ↔ (1 ≤ N ∧ N ≤ rest.length ∧
        ∀ e ∈ rest.take (min N 32), 1 ≤ e ∧ e ≤ 123) := by
  rw [decode_seq_eq, haptic_play_sequence_eq]
  have htake : (rest.take N).take 32 = rest.take (min N 32) := by
    rw [List.take_take, Nat.min_comm]
  by_cases h1 : rest.length < N
  · rw [if_pos h1]
    constructor
    · intro h; cases h
    · rintro ⟨_, hle, _⟩; omega
  · rw [if_neg h1]
    by_cases h0 : (rest.take N).isEmpty
    · rw [if_pos h0]
      have hlen0 : min N rest.length = 0 := by
        rw [List.isEmpty_iff_length_eq_zero, List.length_take] at h0
        exact h0
      constructor
      · intro h; cases h
      · rintro ⟨hN, hle, _⟩
        have hmin : min N rest.length = N := Nat.min_eq_left hle
        omega
    · rw [if_neg h0, htake]
      have hN1 : 1 ≤ N := by
        rcases N with _ | n
        · exact absurd rfl h0
        · omega
      by_cases hv : (rest.take (min N 32)).any (fun e => decide (e < 1 ∨ e > 123))
      · rw [if_pos hv]
        constructor
        · intro h; cases h
        · rintro ⟨_, _, hall⟩
          rcases List.any_eq_true.mp hv with ⟨e, he, hpe⟩
          have := hall e he
          simp only [decide_eq_true_eq] at hpe
          omega
      · rw [if_neg hv]
        constructor
        · intro _
          refine ⟨hN1, by omega, ?_⟩
          intro e he
          by_contra hc
          exact hv (List.any_eq_true.mpr
            ⟨e, he, by simp only [decide_eq_true_eq]; omega⟩)
        · intro _; rfl

/-- C7: for a pattern buffer `[0x03, p]`, decoding succeeds exactly when
`p ≤ 11`, enqueueing the Sequence given by the static pattern table at
index `p`; the table entry at index 0 is the single sharp-click effect and
the entry at index 3 is three repetitions of the strong-click effect. -/
theorem C7_pattern_decode :
    (∀ p : Nat, haptic_process_ble_data [3, p] =
      if p ≤ 11 then
        Except.ok ⟨HapticPatternType.sequence, predefined_patterns.getD p []⟩
      else Except.error (-EINVAL))
    ∧ predefined_patterns.getD 0 [] = [DRV2605L_EFFECT_SHARP_CLICK_100]
    ∧ predefined_patterns.getD 3 [] =
        List.replicate 3 DRV2605L_EFFECT_STRONG_CLICK_100 := by
  refine ⟨?_, rfl, rfl⟩
  intro p
  by_cases hp : p ≤ 11
  · rw [if_pos hp]
    interval_cases p <;> rfl
  · rw [if_neg hp]
    change haptic_play_pattern p = _
    unfold haptic_play_pattern
    have hlen : predefined_patterns.length = 12 := rfl
    rw [hlen, if_pos (by omega : p ≥ 12)]

/-- C8: a two-byte buffer `[0x01, e]` decodes to a SingleEffect request
carrying exactly `e` when `e ∈ [1, 123]`, and fails with the invalid-effect
error (no request enqueued) otherwise. -/
theorem C8_single_effect_decode (e : Nat) :
    haptic_process_ble_data [1, e] =
      if 1 ≤ e ∧ e ≤ 123 then
        Except.ok ⟨HapticPatternType.singleEffect, [e]⟩
      else Except.error (-EINVAL) := by
  change haptic_play_effect e = _
  unfold haptic_play_effect
  by_cases h : e < 1 ∨ e > 123
  · rw [if_pos h, if_neg (by omega : ¬ (1 ≤ e ∧ e ≤ 123))]
  · rw [if_neg h, if_pos (by omega : 1 ≤ e ∧ e ≤ 123)]
    rfl

/-- C9: every buffer whose first byte is 0x04 decodes to a Stop request,
whatever its length and trailing content. -/
theorem C9_stop_decode (rest : List Nat) :
    haptic_process_ble_data (4 :: rest) =
      Except.ok ⟨HapticPatternType.stop, []⟩ := rfl

/-! ## Driver lemmas and claim theorems -/

/-- A failed register write carries a negative bus code. -/
theorem wr_error_neg {bus : Bus} {n : Nat} {tr : WTrace} {reg v : Nat}
    {r : Int} {tr2 : WTrace} {m : Nat}
    (h : wr bus n tr reg v = Except.error (r, tr2, m)) : r < 0 := by
  unfold wr at h
  split at h
  · cases h; assumption
  · cases h

/-- A successful register write appends `(reg, v)` to the trace and
advances the transaction counter. -/
theorem wr_ok_eq {bus : Bus} {n : Nat} {tr : WTrace} {reg v : Nat}
    {tr2 : WTrace} {m : Nat}
    (h : wr bus n tr reg v = Except.ok (tr2, m)) :
    tr2 = tr ++ [(reg, v)] ∧ m = n + 1 := by
  unfold wr at h
  split at h
  · cases h
  · cases h; exact ⟨rfl, rfl⟩

/-- Under a bus whose writes all succeed, `wr` succeeds. -/
theorem wr_good (bus : Bus) (hb : goodWrites bus) (n : Nat) (tr : WTrace)
    (reg v : Nat) : wr bus n tr reg v = Except.ok (tr ++ [(reg, v)], n + 1) := by
  unfold wr
  rw [if_neg]
  have := hb n reg v
  omega

/-- Sequence-loop run over only-valid effects, on a bus whose writes
succeed: every effect is written to its slot, in order. -/
theorem seq_loop_all_valid (bus : Bus) (hb : goodWrites bus) :
    ∀ (l : List Nat) (i n : Nat) (tr : WTrace),
      (∀ e ∈ l, 1 ≤ e ∧ e ≤ 123) →
      drv2605l_seq_loop bus l i n tr =
        Except.ok (tr ++ slotWrites i l, n + l.length) := by
  intro l
  induction l with
  | nil => intro i n tr _; simp [drv2605l_seq_loop, slotWrites]
  | cons e rest ih =>
    intro i n tr hall
    have he := hall e (List.mem_cons_self e rest)
    have hrest : ∀ x ∈ rest, 1 ≤ x ∧ x ≤ 123 :=
      fun x hx => hall x (List.mem_cons_of_mem e hx)
    rw [drv2605l_seq_loop, if_neg (by omega), wr_good bus hb]
    show drv2605l_seq_loop bus rest (i + 1) (n + 1)
        (tr ++ [(DRV2605L_REG_WAVESEQ1 + i, e)]) =
      Except.ok (tr ++ slotWrites i (e :: rest), n + (e :: rest).length)
    rw [ih (i + 1) (n + 1) (tr ++ [(DRV2605L_REG_WAVESEQ1 + i, e)]) hrest]
    simp only [slotWrites, List.length_cons, Except.ok.injEq, Prod.mk.injEq,
      List.append_assoc, List.singleton_append]
    exact ⟨trivial, by omega⟩

/-- Sequence-loop run that hits an out-of-range effect, on a bus whose
writes succeed: the loop aborts with `-EINVAL` after having written exactly
the slots of the valid prefix before the first invalid effect. -/
theorem seq_loop_first_invalid (bus : Bus) (hb : goodWrites bus) :
    ∀ (l : List Nat) (i n : Nat) (tr : WTrace),
      (∃ e ∈ l, e < 1 ∨ 123 < e) →
      drv2605l_seq_loop bus l i n tr =
        Except.error (-EINVAL,
          tr ++ slotWrites i (l.takeWhile effect_in_range),
          n + (l.takeWhile effect_in_range).length) := by
  intro l
  induction l with
  | nil => rintro i n tr ⟨e, he, _⟩; cases he
  | cons e rest ih =>
    intro i n tr hex
    by_cases hr : e < 1 ∨ e > 123
    · have hpr : effect_in_range e = false := by
        simp only [effect_in_range, Bool.and_eq_false_iff, decide_eq_false_iff_not]
        omega
      rw [drv2605l_seq_loop, if_pos hr,
        List.takeWhile_cons_of_neg (by simp [hpr])]
      simp [slotWrites]
    · have hpr : effect_in_range e = true := by
        simp only [effect_in_range, Bool.and_eq_true, decide_eq_true_eq]
        omega
      have hrest : ∃ x ∈ rest, x < 1 ∨ 123 < x := by
        rcases hex with ⟨x, hx, hxr⟩
        rcases List.mem_cons.mp hx with rfl | hx2
        · exact absurd (by omega : x < 1 ∨ x > 123) hr
        · exact ⟨x, hx2, hxr⟩
      rw [drv2605l_seq_loop, if_neg hr, wr_good bus hb,
        List.takeWhile_cons_of_pos hpr]
      show drv2605l_seq_loop bus rest (i + 1) (n + 1)
          (tr ++ [(DRV2605L_REG_WAVESEQ1 + i, e)]) =
        Except.error (-EINVAL,
          tr ++ slotWrites i (e :: List.takeWhile effect_in_range rest),
          n + (e :: List.takeWhile effect_in_range rest).length)
      rw [ih (i + 1) (n + 1) (tr ++ [(DRV2605L_REG_WAVESEQ1 + i, e)]) hrest]
      simp only [slotWrites, List.length_cons, Except.error.injEq,
        Prod.mk.injEq, List.append_assoc, List.singleton_append]
      exact ⟨trivial, trivial, by omega⟩

/-- Register bounds of the slot writes: they target consecutive waveform
slot registers starting at `WAVESEQ1 + i`. -/
theorem slotWrites_reg_bound :
    ∀ (l : List Nat) (i : Nat), ∀ p ∈ slotWrites i l,
      DRV2605L_REG_WAVESEQ1 + i ≤ p.1 ∧
      p.1 < DRV2605L_REG_WAVESEQ1 + i + l.length := by
  intro l
  induction l with
  | nil => intro i p hp; cases hp
  | cons e rest ih =>
    intro i p hp
    rcases List.mem_cons.mp hp with rfl | hp2
    · simp only [List.length_cons]; omega
    · have := ih (i + 1) p hp2
      simp only [List.length_cons]
      omega

/-- Values of the slot writes come from the effect list. -/
theorem slotWrites_val_mem :
    ∀ (l : List Nat) (i : Nat), ∀ p ∈ slotWrites i l, p.2 ∈ l := by
  intro l
  induction l with
  | nil => intro i p hp; cases hp
  | cons e rest ih =>
    intro i p hp
    rcases List.mem_cons.mp hp with rfl | hp2
    · exact List.mem_cons_self _ _
    · exact List.mem_cons_of_mem _ (ih (i + 1) p hp2)

/-- C4: all six register operations reject an uninitialized driver with
`-ENODEV` and perform no register write at all. -/
theorem C4_uninitialized_rejected (bus : Bus) (s : DrvState) (n : Nat)
    (h : s.initialized = false) :
    (∀ e, drv2605l_play_effect bus s n e = (-ENODEV, [], n))
    ∧ (∀ es, drv2605l_play_sequence bus s n es = (-ENODEV, [], n))
    ∧ drv2605l_stop bus s n = (-ENODEV, [], n)
    ∧ drv2605l_standby bus s n = (-ENODEV, [], n)
    ∧ drv2605l_wakeup bus s n = (-ENODEV, [], n)
    ∧ drv2605l_auto_calibrate bus s n = (-ENODEV, [], n) := by
  refine ⟨fun e => ?_, fun es => ?_, ?_, ?_, ?_, ?_⟩ <;>
    simp [drv2605l_play_effect, drv2605l_play_sequence, drv2605l_stop,
      drv2605l_standby, drv2605l_wakeup, drv2605l_auto_calibrate, h]

/-- C4 witness at a concrete bus, state and counter. -/
theorem C4_uninitialized_rejected_witness :
    (∀ e, drv2605l_play_effect goodBus ⟨false, MotorType.erm⟩ 0 e =
      (-ENODEV, [], 0))
    ∧ (∀ es, drv2605l_play_sequence goodBus ⟨false, MotorType.erm⟩ 0 es =
      (-ENODEV, [], 0))
    ∧ drv2605l_stop goodBus ⟨false, MotorType.erm⟩ 0 = (-ENODEV, [], 0)
    ∧ drv2605l_standby goodBus ⟨false, MotorType.erm⟩ 0 = (-ENODEV, [], 0)
    ∧ drv2605l_wakeup goodBus ⟨false, MotorType.erm⟩ 0 = (-ENODEV, [], 0)
    ∧ drv2605l_auto_calibrate goodBus ⟨false, MotorType.erm⟩ 0 =
      (-ENODEV, [], 0) :=
  C4_uninitialized_rejected goodBus ⟨false, MotorType.erm⟩ 0 rfl

/-- Reducing `andThenW` over a success. -/
theorem andThenW_ok (tr : WTrace) (m : Nat)
    (f : WTrace → Nat → Except (Int × WTrace × Nat) (WTrace × Nat)) :
    andThenW (Except.ok (tr, m)) f = f tr m := rfl

/-- Reducing `andThenW` over a failure. -/
theorem andThenW_error (out : Int × WTrace × Nat)
    (f : WTrace → Nat → Except (Int × WTrace × Nat) (WTrace × Nat)) :
    andThenW (Except.error out) f = Except.error out := rfl

/-- Reducing `doneW` over a success. -/
theorem doneW_ok (tr : WTrace) (m : Nat) :
    doneW (Except.ok (tr, m)) = (0, tr, m) := rfl

/-- Reducing `doneW` over a failure. -/
theorem doneW_error (out : Int × WTrace × Nat) :
    doneW (Except.error out) = out := rfl

/-- The post-validation body of `drv2605l_play_sequence` on a bus whose
writes succeed, when every effect of the (already truncated) list `es` is
in range: all slots written in order, a zero terminator only when fewer
than 8 slots are used, then the go trigger. -/
theorem play_sequence_core_valid (bus : Bus) (hb : goodWrites bus)
    (es : List Nat) (n : Nat) (hall : ∀ e ∈ es, 1 ≤ e ∧ e ≤ 123) :
    doneW (
      andThenW (drv2605l_seq_loop bus es 0 n []) fun tr m =>
      andThenW (if es.length < DRV2605L_MAX_WAVEFORM_SEQ then
                  wr bus m tr (DRV2605L_REG_WAVESEQ1 + es.length) 0x00
                else Except.ok (tr, m)) fun tr m =>
      wr bus m tr DRV2605L_REG_GO 0x01) =
    (if es.length < DRV2605L_MAX_WAVEFORM_SEQ then
      (0, slotWrites 0 es ++
          [(DRV2605L_REG_WAVESEQ1 + es.length, 0), (DRV2605L_REG_GO, 1)],
       n + es.length + 2)
    else
      (0, slotWrites 0 es ++ [(DRV2605L_REG_GO, 1)], n + es.length + 1)) := by
  rw [seq_loop_all_valid bus hb es 0 n [] hall, andThenW_ok]
  by_cases hlt : es.length < DRV2605L_MAX_WAVEFORM_SEQ
  · rw [if_pos hlt, if_pos hlt, wr_good bus hb, andThenW_ok, wr_good bus hb,
      doneW_ok]
    simp [List.append_assoc]
  · rw [if_neg hlt, if_neg hlt, andThenW_ok, wr_good bus hb, doneW_ok]
    simp

/-- Specialization of `play_sequence_core_valid` to a full 8-slot list
(no terminator written). -/
theorem play_sequence_core_valid_full (bus : Bus) (hb : goodWrites bus)
    (es : List Nat) (n : Nat) (hlen : es.length = DRV2605L_MAX_WAVEFORM_SEQ)
    (hall : ∀ e ∈ es, 1 ≤ e ∧ e ≤ 123) :
    doneW (
      andThenW (drv2605l_seq_loop bus es 0 n []) fun tr m =>
      andThenW (if es.length < DRV2605L_MAX_WAVEFORM_SEQ then
                  wr bus m tr (DRV2605L_REG_WAVESEQ1 + es.length) 0x00
                else Except.ok (tr, m)) fun tr m =>
      wr bus m tr DRV2605L_REG_GO 0x01) =
    (0, slotWrites 0 es ++ [(DRV2605L_REG_GO, 1)], n + es.length + 1) := by
  rw [play_sequence_core_valid bus hb es n hall, if_neg (by omega)]

/-- The post-validation body of `drv2605l_play_sequence` on a bus whose
writes succeed, when some effect of `es` is out of range: the loop aborts
with `-EINVAL`, the valid prefix having been written. -/
theorem play_sequence_core_invalid (bus : Bus) (hb : goodWrites bus)
    (es : List Nat) (n : Nat) (hinv : ∃ e ∈ es, e < 1 ∨ 123 < e) :
    doneW (
      andThenW (drv2605l_seq_loop bus es 0 n []) fun tr m =>
      andThenW (if es.length < DRV2605L_MAX_WAVEFORM_SEQ then
                  wr bus m tr (DRV2605L_REG_WAVESEQ1 + es.length) 0x00
                else Except.ok (tr, m)) fun tr m =>
      wr bus m tr DRV2605L_REG_GO 0x01) =
    (-EINVAL, slotWrites 0 (es.takeWhile effect_in_range),
     n + (es.takeWhile effect_in_range).length) := by
  rw [seq_loop_first_invalid bus hb es 0 n [] hinv, andThenW_error, doneW_error]
  simp

/-- C2 (counterexample): on an initialized driver over a flawless bus, the
sequence `[1, 200]` is rejected with `-EINVAL`, yet waveform-sequence slot
register 1 has already been written with effect 1 — validation does not
complete before the first register write. -/
theorem C2_partial_write_counterexample :
    drv2605l_play_sequence goodBus ⟨true, MotorType.erm⟩ 0 [1, 200] =
      (-EINVAL, [(DRV2605L_REG_WAVESEQ1, 1)], 1)
    ∧ (DRV2605L_REG_WAVESEQ1, 1) ∈
        (drv2605l_play_sequence goodBus ⟨true, MotorType.erm⟩ 0 [1, 200]).2.1 :=
  ⟨rfl, by decide⟩

/-- C2 (amended): if any effect of the (truncated-to-8) input is out of
range, the call returns `-EINVAL` and the register writes performed are
exactly the waveform slots of the valid prefix before the first invalid
effect — the go trigger is never written, so playback is not started, but
slots of that prefix have already been overwritten. -/
theorem C2_sequence_validation_amended (bus : Bus) (s : DrvState) (n : Nat)
    (effects : List Nat) (hb : goodWrites bus) (hi : s.initialized = true)
    (hinv : ∃ e ∈ (if effects.length > DRV2605L_MAX_WAVEFORM_SEQ
                   then effects.take DRV2605L_MAX_WAVEFORM_SEQ
                   else effects), e < 1 ∨ 123 < e) :
    drv2605l_play_sequence bus s n effects =
      (-EINVAL,
       slotWrites 0 (List.takeWhile effect_in_range
         (if effects.length > DRV2605L_MAX_WAVEFORM_SEQ
          then effects.take DRV2605L_MAX_WAVEFORM_SEQ else effects)),
       n + (List.takeWhile effect_in_range
         (if effects.length > DRV2605L_MAX_WAVEFORM_SEQ
          then effects.take DRV2605L_MAX_WAVEFORM_SEQ
          else effects)).length)
    ∧ ∀ p ∈ (drv2605l_play_sequence bus s n effects).2.1,
        p.1 ≠ DRV2605L_REG_GO := by
  have hne : effects.isEmpty = false := by
    rcases hinv with ⟨e, he, _⟩
    rcases effects with _ | ⟨a, l⟩
    · simp at he
    · rfl
  have hmain : drv2605l_play_sequence bus s n effects =
      (-EINVAL,
       slotWrites 0 (List.takeWhile effect_in_range
         (if effects.length > DRV2605L_MAX_WAVEFORM_SEQ
          then effects.take DRV2605L_MAX_WAVEFORM_SEQ else effects)),
       n + (List.takeWhile effect_in_range
         (if effects.length > DRV2605L_MAX_WAVEFORM_SEQ
          then effects.take DRV2605L_MAX_WAVEFORM_SEQ
          else effects)).length) := by
    unfold drv2605l_play_sequence
    rw [if_neg (by simp [hi]), if_neg (by simp [hne])]
    exact play_sequence_core_invalid bus hb _ n hinv
  refine ⟨hmain, ?_⟩
  rw [hmain]
  intro p hp
  have hbound := slotWrites_reg_bound _ 0 p hp
  have hlenes : (if effects.length > DRV2605L_MAX_WAVEFORM_SEQ
      then effects.take DRV2605L_MAX_WAVEFORM_SEQ
      else effects).length ≤ DRV2605L_MAX_WAVEFORM_SEQ := by
    by_cases hgt : effects.length > DRV2605L_MAX_WAVEFORM_SEQ
    · rw [if_pos hgt, List.length_take]
      exact Nat.min_le_left _ _
    · rw [if_neg hgt]; omega
  have hlentw : (List.takeWhile effect_in_range
      (if effects.length > DRV2605L_MAX_WAVEFORM_SEQ
       then effects.take DRV2605L_MAX_WAVEFORM_SEQ
       else effects)).length ≤
      (if effects.length > DRV2605L_MAX_WAVEFORM_SEQ
       then effects.take DRV2605L_MAX_WAVEFORM_SEQ
       else effects).length :=
    List.Sublist.length_le (List.takeWhile_sublist effect_in_range)
  have : p.1 < DRV2605L_REG_WAVESEQ1 + DRV2605L_MAX_WAVEFORM_SEQ := by
    have := hlentw.trans hlenes
    omega
  simp only [DRV2605L_REG_WAVESEQ1, DRV2605L_MAX_WAVEFORM_SEQ,
    DRV2605L_REG_GO] at this ⊢
  omega

/-- C2 witness: the amended statement applied at the concrete two-effect
sequence `[1, 200]` on a flawless bus. -/
theorem C2_sequence_validation_amended_witness :
    drv2605l_play_sequence goodBus ⟨true, MotorType.erm⟩ 0 [1, 200] =
      (-EINVAL,
       slotWrites 0 (List.takeWhile effect_in_range
         (if [1, 200].length > DRV2605L_MAX_WAVEFORM_SEQ
          then [1, 200].take DRV2605L_MAX_WAVEFORM_SEQ else [1, 200])),
       0 + (List.takeWhile effect_in_range
         (if [1, 200].length > DRV2605L_MAX_WAVEFORM_SEQ
          then [1, 200].take DRV2605L_MAX_WAVEFORM_SEQ
          else [1, 200])).length)
    ∧ ∀ p ∈ (drv2605l_play_sequence goodBus ⟨true, MotorType.erm⟩ 0
        [1, 200]).2.1, p.1 ≠ DRV2605L_REG_GO :=
  C2_sequence_validation_amended goodBus ⟨true, MotorType.erm⟩ 0 [1, 200]
    (fun _ _ _ => le_refl 0) rfl
    ⟨200, by simp [DRV2605L_MAX_WAVEFORM_SEQ], by omega⟩

/-- C3: a Sequence of more than 8 (and at most 32) in-range effects on an
initialized driver over a bus whose writes succeed is truncated to its
first 8 effects: exactly those are written to waveform slots 1..8, the
go trigger follows, no other register is touched, and no zero terminator
is written (all 8 slots are used). -/
theorem C3_sequence_truncation (bus : Bus) (s : DrvState) (n : Nat)
    (effects : List Nat) (hb : goodWrites bus) (hi : s.initialized = true)
    (hlong : DRV2605L_MAX_WAVEFORM_SEQ < effects.length)
    (hcap : effects.length ≤ 32)
    (hall : ∀ e ∈ effects, 1 ≤ e ∧ e ≤ 123) :
    drv2605l_play_sequence bus s n effects =
      (0, slotWrites 0 (effects.take DRV2605L_MAX_WAVEFORM_SEQ) ++
          [(DRV2605L_REG_GO, 1)], n + 9)
    ∧ ∀ p ∈ (drv2605l_play_sequence bus s n effects).2.1, p.2 ≠ 0 := by
  have hgt : effects.length > DRV2605L_MAX_WAVEFORM_SEQ := hlong
  have hne : effects.isEmpty = false := by
    rcases effects with _ | ⟨a, l⟩
    · exact absurd hlong (by simp)
    · rfl
  have hallt : ∀ e ∈ effects.take DRV2605L_MAX_WAVEFORM_SEQ,
      1 ≤ e ∧ e ≤ 123 :=
    fun e he => hall e (List.take_subset _ _ he)
  have hlen8 : (effects.take DRV2605L_MAX_WAVEFORM_SEQ).length =
      DRV2605L_MAX_WAVEFORM_SEQ := by
    rw [List.length_take]
    simp only [DRV2605L_MAX_WAVEFORM_SEQ] at hlong ⊢
    omega
  have hcore := play_sequence_core_valid_full bus hb
    (if effects.length > DRV2605L_MAX_WAVEFORM_SEQ
     then effects.take DRV2605L_MAX_WAVEFORM_SEQ else effects) n
    (by rw [if_pos hgt]; exact hlen8)
    (by rw [if_pos hgt]; exact hallt)
  rw [if_pos hgt] at hcore
  have hmain : drv2605l_play_sequence bus s n effects =
      (0, slotWrites 0 (effects.take DRV2605L_MAX_WAVEFORM_SEQ) ++
          [(DRV2605L_REG_GO, 1)], n + 9) := by
    unfold drv2605l_play_sequence
    rw [if_neg (by simp [hi]), if_neg (by simp [hne])]
    show doneW (
        andThenW (drv2605l_seq_loop bus
          (if effects.length > DRV2605L_MAX_WAVEFORM_SEQ
           then effects.take DRV2605L_MAX_WAVEFORM_SEQ else effects) 0 n [])
          fun tr m =>
        andThenW (if (if effects.length > DRV2605L_MAX_WAVEFORM_SEQ
                      then effects.take DRV2605L_MAX_WAVEFORM_SEQ
                      else effects).length < DRV2605L_MAX_WAVEFORM_SEQ then
                    wr bus m tr (DRV2605L_REG_WAVESEQ1 +
                      (if effects.length > DRV2605L_MAX_WAVEFORM_SEQ
                       then effects.take DRV2605L_MAX_WAVEFORM_SEQ
                       else effects).length) 0x00
                  else Except.ok (tr, m)) fun tr m =>
        wr bus m tr DRV2605L_REG_GO 0x01) = _
    rw [if_pos hgt]
    refine hcore.trans ?_
    rw [hlen8]
    simp [DRV2605L_MAX_WAVEFORM_SEQ]
  refine ⟨hmain, ?_⟩
  rw [hmain]
  intro p hp
  rcases List.mem_append.mp hp with hp1 | hp2
  · have hv := slotWrites_val_mem _ 0 p hp1
    have := hallt p.2 hv
    omega
  · have := List.mem_singleton.mp hp2
    rw [this]
    simp

/-- C3 witness: nine identical strong-click effects are truncated to
eight slot writes and the go trigger. -/
theorem C3_sequence_truncation_witness :
    drv2605l_play_sequence goodBus ⟨true, MotorType.erm⟩ 0
        (List.replicate 9 1) =
      (0, slotWrites 0 ((List.replicate 9 1).take DRV2605L_MAX_WAVEFORM_SEQ) ++
          [(DRV2605L_REG_GO, 1)], 0 + 9)
    ∧ ∀ p ∈ (drv2605l_play_sequence goodBus ⟨true, MotorType.erm⟩ 0
        (List.replicate 9 1)).2.1, p.2 ≠ 0 :=
  C3_sequence_truncation goodBus ⟨true, MotorType.erm⟩ 0 (List.replicate 9 1)
    (fun _ _ _ => le_refl 0) rfl (by simp [DRV2605L_MAX_WAVEFORM_SEQ])
    (by simp)
    (by intro e he; rcases List.eq_of_mem_replicate he with rfl; omega)

/-- Any failure of a `wrChain` carries a negative code. -/
theorem wrChain_error_neg (bus : Bus) :
    ∀ (ws : List (Nat × Nat)) (n : Nat) (tr : WTrace)
      (out : Int × WTrace × Nat),
      wrChain bus n tr ws = Except.error out → out.1 < 0 := by
  intro ws
  induction ws with
  | nil => intro n tr out h; simp [wrChain] at h
  | cons w rest ih =>
    intro n tr out h
    obtain ⟨reg, v⟩ := w
    rw [wrChain] at h
    by_cases hw : bus.write n reg v < 0
    · rw [show wr bus n tr reg v =
          Except.error (bus.write n reg v, tr, n + 1) from by
            unfold wr; rw [if_pos hw], andThenW_error] at h
      cases h
      exact hw
    · rw [show wr bus n tr reg v =
          Except.ok (tr ++ [(reg, v)], n + 1) from by
            unfold wr; rw [if_neg hw], andThenW_ok] at h
      exact ih _ _ _ h

/-- A successful `wrChain` appends exactly its write list to the trace and
advances the counter by its length. -/
theorem wrChain_ok_eq (bus : Bus) :
    ∀ (ws : List (Nat × Nat)) (n : Nat) (tr tr2 : WTrace) (m : Nat),
      wrChain bus n tr ws = Except.ok (tr2, m) →
      tr2 = tr ++ ws ∧ m = n + ws.length := by
  intro ws
  induction ws with
  | nil =>
    intro n tr tr2 m h
    rw [wrChain] at h
    simp only [Except.ok.injEq, Prod.mk.injEq] at h
    exact ⟨by rw [← h.1, List.append_nil], by rw [List.length_nil]; omega⟩
  | cons w rest ih =>
    intro n tr tr2 m h
    obtain ⟨reg, v⟩ := w
    rw [wrChain] at h
    by_cases hw : bus.write n reg v < 0
    · rw [show wr bus n tr reg v =
          Except.error (bus.write n reg v, tr, n + 1) from by
            unfold wr; rw [if_pos hw], andThenW_error] at h
      simp at h
    · rw [show wr bus n tr reg v =
          Except.ok (tr ++ [(reg, v)], n + 1) from by
            unfold wr; rw [if_neg hw], andThenW_ok] at h
      obtain ⟨h1, h2⟩ := ih (n + 1) (tr ++ [(reg, v)]) tr2 m h
      refine ⟨?_, by rw [h2, List.length_cons]; omega⟩
      rw [h1, List.append_assoc]
      simp

/-- C5 (counterexample): initializing with the LRA motor type on a
flawless bus succeeds, yet the CONTROL1 register (0x1B) has been written —
the control registers are not skipped in the LRA case. -/
theorem C5_lra_init_counterexample :
    (drv2605l_init goodBus ⟨false, MotorType.erm⟩ 0 MotorType.lra).1 = 0
    ∧ (DRV2605L_REG_CONTROL1, 0x93) ∈
        (drv2605l_init goodBus ⟨false, MotorType.erm⟩ 0 MotorType.lra).2.1 :=
  ⟨rfl, by decide⟩

/-- C5 (amended): whenever `drv2605l_init` with the LRA motor type
succeeds, the writes it performed beyond the status probe are exactly the
mode, library-selection, feedback-control and the three control registers
(the control values are the same fixed constants as in the ERM case);
only the rated-voltage and overdrive-clamp registers are skipped for
LRA. -/
theorem C5_lra_init_registers (bus : Bus) (s : DrvState) (n : Nat)
    (h : (drv2605l_init bus s n MotorType.lra).1 = 0) :
    (drv2605l_init bus s n MotorType.lra).2.1 = lraInitWrites
    ∧ ∀ p ∈ (drv2605l_init bus s n MotorType.lra).2.1,
        p.1 ≠ DRV2605L_REG_RATEDV ∧ p.1 ≠ DRV2605L_REG_CLAMPV := by
  have hlist : ([(DRV2605L_REG_MODE, DRV2605L_MODE_INTTRIG),
      (DRV2605L_REG_LIBRARY,
       if MotorType.lra = MotorType.lra then DRV2605L_LIB_LRA
       else DRV2605L_LIB_ERM),
      (DRV2605L_REG_FEEDBACK,
       if MotorType.lra = MotorType.lra then 0x80 else 0x00)] ++
     (if MotorType.lra = MotorType.erm then
        [(DRV2605L_REG_RATEDV, 0x90), (DRV2605L_REG_CLAMPV, 0xFF)]
      else []) ++
     [(DRV2605L_REG_CONTROL1, 0x93), (DRV2605L_REG_CONTROL2, 0xF5),
      (DRV2605L_REG_CONTROL3, 0xA0)]) = lraInitWrites := rfl
  unfold drv2605l_init at h ⊢
  by_cases hr : ¬ bus.ready
  · rw [if_pos hr] at h
    exact absurd h (by simp [ENODEV])
  · rw [if_neg hr] at h ⊢
    by_cases hrd : (bus.read n DRV2605L_REG_STATUS).1 < 0
    · rw [if_pos hrd] at h
      change (bus.read n DRV2605L_REG_STATUS).1 = 0 at h
      omega
    · rw [if_neg hrd] at h ⊢
      rw [hlist] at h ⊢
      cases hch : wrChain bus (n + 1) [] lraInitWrites with
      | error out =>
        obtain ⟨r, tr2, m2⟩ := out
        rw [hch] at h
        have hneg : r < 0 := wrChain_error_neg bus _ _ _ _ hch
        change r = 0 at h
        omega
      | ok q =>
        obtain ⟨tr2, m2⟩ := q
        obtain ⟨h1, _⟩ := wrChain_ok_eq bus _ _ _ _ _ hch
        rw [List.nil_append] at h1
        subst h1
        refine ⟨rfl, ?_⟩
        intro p hp
        rw [lraInitWrites] at hp
        simp only [List.mem_cons, List.not_mem_nil, or_false] at hp
        rcases hp with rfl | rfl | rfl | rfl | rfl | rfl <;>
          exact ⟨by decide, by decide⟩

/-- C5 witness: the amended statement applied to init over a flawless
bus. -/
theorem C5_lra_init_registers_witness :
    (drv2605l_init goodBus ⟨false, MotorType.erm⟩ 0 MotorType.lra).2.1 =
      lraInitWrites
    ∧ ∀ p ∈ (drv2605l_init goodBus ⟨false, MotorType.erm⟩ 0
        MotorType.lra).2.1,
        p.1 ≠ DRV2605L_REG_RATEDV ∧ p.1 ≠ DRV2605L_REG_CLAMPV :=
  C5_lra_init_registers goodBus ⟨false, MotorType.erm⟩ 0 rfl

/-- C6 (code behavior at the failing input): on an initialized LRA driver
over a flawless bus whose go bit is observed clear for the first time on
the 100th (final) poll, `drv2605l_auto_calibrate` returns `-ETIMEDOUT`
even though the bit did clear within the bounded polling window; with the
bit observed clear on the 99th poll instead, the call proceeds through the
diagnostic check and succeeds. -/
theorem C6_autocal_last_poll_timeout :
    (drv2605l_auto_calibrate lastPollClearBus ⟨true, MotorType.lra⟩ 0).1 =
      -ETIMEDOUT
    ∧ (drv2605l_auto_calibrate poll99ClearBus ⟨true, MotorType.lra⟩ 0).1 =
      0 :=
  ⟨rfl, rfl⟩

/-- C10: every request a service entry point actually enqueues has at most
32 payload bytes, effect-carrying requests hold only ids in [1, 123]
(Sequence payloads moreover nonempty); consequently, on an initialized
driver over a bus whose writes succeed, a dequeued request never fails the
driver range validation: `drv2605l_play_sequence` accepts any such
nonempty payload and `drv2605l_play_effect` accepts each of its bytes. -/
theorem C10_queue_payload_invariant :
    (∀ e r, haptic_play_effect e = Except.ok r → payload_ok r)
    ∧ (∀ p r, haptic_play_pattern p = Except.ok r →
        payload_ok r ∧ r.data ≠ [])
    ∧ (∀ es r, haptic_play_sequence es = Except.ok r →
        payload_ok r ∧ r.data ≠ [])
    ∧ (∀ r, haptic_stop = Except.ok r → payload_ok r)
    ∧ (∀ (l : List Nat) (bus : Bus) (s : DrvState) (n : Nat),
        goodWrites bus → s.initialized = true → l ≠ [] → l.length ≤ 32 →
        (∀ e ∈ l, 1 ≤ e ∧ e ≤ 123) →
        (drv2605l_play_sequence bus s n l).1 = 0
        ∧ ∀ e ∈ l, (drv2605l_play_effect bus s n e).1 = 0) := by
  refine ⟨?_, ?_, ?_, ?_, ?_⟩
  · intro e r h
    unfold haptic_play_effect at h
    by_cases hc : e < 1 ∨ e > 123
    · rw [if_pos hc] at h; simp at h
    · rw [if_neg hc] at h
      unfold queue_haptic_data at h
      rw [if_neg (by simp [HAPTIC_MAX_DATA_SIZE])] at h
      simp only [Except.ok.injEq] at h
      subst h
      refine ⟨by simp, fun _ x hx => ?_⟩
      simp only [List.mem_singleton] at hx
      subst hx
      omega
  · intro p r h
    unfold haptic_play_pattern at h
    by_cases hp : p ≥ predefined_patterns.length
    · rw [if_pos hp] at h; simp at h
    · rw [if_neg hp] at h
      have hp12 : p < 12 := by
        simp only [predefined_patterns, List.length_cons, List.length_nil]
          at hp
        omega
      have hp11 : p ≤ 11 := by omega
      interval_cases p <;> (injection h with h2; subst h2; decide)
  · intro es r h
    rw [haptic_play_sequence_eq] at h
    by_cases h0 : es.isEmpty
    · rw [if_pos h0] at h; simp at h
    · rw [if_neg h0] at h
      by_cases hv : (es.take 32).any (fun e => decide (e < 1 ∨ e > 123))
      · rw [if_pos hv] at h; simp at h
      · rw [if_neg hv] at h
        simp only [Except.ok.injEq] at h
        subst h
        refine ⟨⟨List.length_take_le 32 es, fun _ e he => ?_⟩, fun hnil => ?_⟩
        · by_contra hc
          exact hv (List.any_eq_true.mpr
            ⟨e, he, by simp only [decide_eq_true_eq]; omega⟩)
        · rcases List.take_eq_nil_iff.mp hnil with h32 | hesnil
          · cases h32
          · rw [hesnil] at h0
            exact h0 rfl
  · intro r h
    unfold haptic_stop queue_haptic_data at h
    rw [if_neg (by simp [HAPTIC_MAX_DATA_SIZE])] at h
    simp only [Except.ok.injEq] at h
    subst h
    refine ⟨by simp, fun hd => ?_⟩
    rcases hd with hd | hd <;> exact absurd hd (by simp)
  · intro l bus s n hb hi hne hlen hall
    have hne2 : l.isEmpty = false := by
      rcases l with _ | ⟨a, t⟩
      · exact absurd rfl hne
      · rfl
    constructor
    · have hallt : ∀ e ∈ (if l.length > DRV2605L_MAX_WAVEFORM_SEQ
          then l.take DRV2605L_MAX_WAVEFORM_SEQ else l),
          1 ≤ e ∧ e ≤ 123 := by
        intro e he
        by_cases hgt : l.length > DRV2605L_MAX_WAVEFORM_SEQ
        · rw [if_pos hgt] at he
          exact hall e (List.take_subset _ _ he)
        · rw [if_neg hgt] at he
          exact hall e he
      have hcore := play_sequence_core_valid bus hb
        (if l.length > DRV2605L_MAX_WAVEFORM_SEQ
         then l.take DRV2605L_MAX_WAVEFORM_SEQ else l) n hallt
      unfold drv2605l_play_sequence
      rw [if_neg (by simp [hi]), if_neg (by simp [hne2])]
      refine Eq.trans (congrArg Prod.fst hcore) ?_
      by_cases h8 : (if l.length > DRV2605L_MAX_WAVEFORM_SEQ
          then l.take DRV2605L_MAX_WAVEFORM_SEQ else l).length <
          DRV2605L_MAX_WAVEFORM_SEQ
      · rw [if_pos h8]
      · rw [if_neg h8]
    · intro e he
      have hee := hall e he
      unfold drv2605l_play_effect
      rw [if_neg (by simp [hi]), if_neg (by omega)]
      rw [wr_good bus hb, andThenW_ok, wr_good bus hb, andThenW_ok,
        wr_good bus hb, doneW_ok]

/-- C10 witness: the invariant and the driver acceptance at the concrete
single effect 5. -/
theorem C10_queue_payload_invariant_witness :
    payload_ok ⟨HapticPatternType.singleEffect, [5]⟩
    ∧ (drv2605l_play_sequence goodBus ⟨true, MotorType.erm⟩ 0 [5]).1 = 0 :=
  ⟨C10_queue_payload_invariant.1 5 ⟨HapticPatternType.singleEffect, [5]⟩ rfl,
   (C10_queue_payload_invariant.2.2.2.2 [5] goodBus ⟨true, MotorType.erm⟩ 0
     (fun _ _ _ => le_refl 0) rfl (by simp) (by simp)
     (by intro e he; simp only [List.mem_singleton] at he; omega)).1⟩
